import Mathlib

/-!
Verification development for the template-driven code-generation core of the
ai-lowcode-editor repository (`src/docs/06-代码生成与预览.md`).

The TypeScript source is shallowly embedded: strings are `List Char` /
`String`, JavaScript runtime values are `JsVal`, a JS `Map` is an
association list whose `set` replaces in place (preserving insertion order,
as JS `Map.set` does), and code that can throw returns `Except`.  The
regex-driven text transformations of `TemplateEngine` are embedded as
executable scanners that reproduce the semantics of the source regexes
(left-to-right search, lazy quantifiers, advance-by-one on a failed match
attempt, continue after the replacement on success).
-/

/-- Whitespace test matching the JS regex class `\s` on the characters that
occur in this development (space, tab, newline, carriage return, form feed,
vertical tab). -/
def isWsChar (c : Char) : Bool :=
  c = ' ' || c = '\t' || c = '\n' || c = '\r' || c = '\x0c' || c = '\x0b'

/-- Word-character test matching the JS regex class `\w`: ASCII letters,
digits and underscore. -/
def isWordChar (c : Char) : Bool :=
  ('a' ≤ c && c ≤ 'z') || ('A' ≤ c && c ≤ 'Z') || ('0' ≤ c && c ≤ '9') || c = '_'

/-- `String.trim` / JS `String.prototype.trim` on char lists. -/
def trimChars (s : List Char) : List Char :=
  ((s.dropWhile isWsChar).reverse.dropWhile isWsChar).reverse

/-- Does `pre` occur at the start of `s`? (List-level `startsWith`.) -/
def startsWithL : List Char → List Char → Bool
  | [], _ => true
  | _ :: _, [] => false
  | p :: ps, c :: cs => p = c && startsWithL ps cs

/-- First occurrence of `sub` in `s`: returns the text before the occurrence
and the text after it, or `none` when `sub` does not occur.  This is the
search a lazy `[\s\S]*?` up to a literal performs. -/
def findSubL (sub : List Char) : List Char → Option (List Char × List Char)
  | [] => if sub = [] then some ([], []) else none
  | c :: rest =>
    if startsWithL sub (c :: rest) then some ([], (c :: rest).drop sub.length)
    else (findSubL sub rest).map (fun pr => (c :: pr.1, pr.2))

/-- JS `str.split(sep)` for a non-empty string separator, with fuel (the
input length bounds the recursion). -/
def splitSubF (sep : List Char) : Nat → List Char → List (List Char)
  | 0, s => [s]
  | _ + 1, [] => [[]]
  | fuel + 1, c :: rest =>
    if startsWithL sep (c :: rest) then
      [] :: splitSubF sep fuel ((c :: rest).drop sep.length)
    else
      match splitSubF sep fuel rest with
      | [] => [[c]]
      | t :: ts => (c :: t) :: ts

/-- JS `str.split(sep)` for a non-empty string separator. -/
def splitSubL (sep s : List Char) : List (List Char) :=
  splitSubF sep (s.length + 1) s

/-- JS `str.split('.')` (single-character separator: always at least one
piece, empty pieces preserved). -/
def splitDotL : List Char → List (List Char) := splitSubL ['.']

/-- JS `str.split(/\s+/)`: splits on maximal whitespace runs; a leading or
trailing run contributes an empty piece, and `"".split(/\s+/) = [""]`. -/
def jsSplitWs : List Char → List Char → Bool → List (List Char)
  | [], acc, _ => [acc.reverse]
  | c :: rest, acc, inWs =>
    if isWsChar c then
      if inWs then jsSplitWs rest acc true
      else acc.reverse :: jsSplitWs rest [] true
    else jsSplitWs rest (c :: acc) false

/-- Entry point for `jsSplitWs`. -/
def splitWsL (s : List Char) : List (List Char) := jsSplitWs s [] false

/-- Decimal digits of a natural number. -/
def natDigits (n : Nat) : List Char := Nat.toDigits 10 n

/-- Decimal rendering of an integer. -/
def intChars (i : Int) : List Char :=
  if i < 0 then '-' :: natDigits i.natAbs else natDigits i.natAbs

/-- Fractional digits of `num/den` (`num < den`), up to `fuel` digits.
Terminating decimals are rendered exactly; this covers every number that the
embedded programs ever turn into text. -/
def fracDigits : Nat → Nat → Nat → List Char
  | 0, _, _ => []
  | _ + 1, 0, _ => []
  | fuel + 1, num, den =>
    let num10 := num * 10
    (natDigits (num10 / den)).append (fracDigits fuel (num10 % den) den)

/-- JS `String(n)` for the numbers of this development (exact for integers
and terminating decimals). -/
def ratChars (q : ℚ) : List Char :=
  if q.den = 1 then intChars q.num
  else
    (if q.num < 0 then ['-'] else []) ++
      natDigits (q.num.natAbs / q.den) ++ '.' ::
        fracDigits 30 (q.num.natAbs % q.den) q.den

/-- JavaScript runtime values, as far as the embedded programs touch them:
`undefined`, `null`, booleans, numbers, strings, arrays and plain objects.
Object identity is not modelled (the embedded code never relies on it). -/
inductive JsVal where
  | undefined : JsVal
  | jsNull : JsVal
  | bool : Bool → JsVal
  | num : ℚ → JsVal
  | str : String → JsVal
  | arr : List JsVal → JsVal
  | obj : List (String × JsVal) → JsVal

/-- A render context: the `Record<string, any>` passed to `render`. -/
abbrev Ctx := List (String × JsVal)

/-- First binding of `key` in a JS-object field list (JS object keys are
unique; with duplicates the first binding wins, matching how the embedding
builds extended contexts by prepending). -/
def fieldLookup (key : String) : List (String × JsVal) → Option JsVal
  | [] => none
  | (k, v) :: rest => if k = key then some v else fieldLookup key rest

/-- JS truthiness: `undefined`, `null`, `false`, `0` and `""` are falsy. -/
def jsTruthy : JsVal → Bool
  | .undefined => false
  | .jsNull => false
  | .bool b => b
  | .num q => !(q = 0)
  | .str s => !(s = "")
  | .arr _ => true
  | .obj _ => true

/-- Canonical decimal form of a natural-number array index. -/
def parseNatIndex (s : List Char) : Option Nat :=
  if s ≠ [] && s.all (fun c => '0' ≤ c && c ≤ '9') && (s.head? ≠ some '0' || s = ['0'])
  then some (s.foldl (fun n c => n * 10 + (c.toNat - '0'.toNat)) 0)
  else none

/-- JS property access `v[key]` as used by the engine's path resolution:
object fields, array `length` and indices, string `length` and indices.
Prototype methods are not modelled (the engine only reads data fields). -/
def jsProp (v : JsVal) (key : List Char) : JsVal :=
  match v with
  | .obj fields =>
    match fieldLookup (String.mk key) fields with
    | some w => w
    | none => .undefined
  | .arr elems =>
    if key = "length".data then .num elems.length
    else
      match parseNatIndex key with
      | some i => match elems.get? i with | some w => w | none => .undefined
      | none => .undefined
  | .str s =>
    if key = "length".data then .num s.data.length
    else
      match parseNatIndex key with
      | some i =>
        match s.data.get? i with
        | some c => .str (String.mk [c])
        | none => .undefined
      | none => .undefined
  | _ => .undefined

/-- One step of the source's path reduce:
`obj && obj[key] !== undefined ? obj[key] : undefined`. -/
def pathStep (v : JsVal) (key : List Char) : JsVal :=
  if jsTruthy v then jsProp v key else .undefined

/-- `path.split('.').reduce(..., context)`: dot-path resolution against the
context, exactly as `replaceVariables` and `processLoops` perform it. -/
def resolvePathL (ctx : Ctx) (path : List Char) : JsVal :=
  (splitDotL path).foldl pathStep (JsVal.obj ctx)

mutual

/-- JS `String(v)` (for defined values; `replaceVariables` never stringifies
`undefined`).  Arrays join their elements with `","`, `null`/`undefined`
elements joining as empty, per `Array.prototype.toString`. -/
def jsStringChars : JsVal → List Char
  | .undefined => "undefined".data
  | .jsNull => "null".data
  | .bool b => if b then "true".data else "false".data
  | .num q => ratChars q
  | .str s => s.data
  | .arr elems => jsJoinChars elems
  | .obj _ => "[object Object]".data

/-- `Array.prototype.join(',')`: elements stringified, with `null` and
`undefined` elements joining as empty. -/
def jsJoinChars : List JsVal → List Char
  | [] => []
  | [.undefined] => []
  | [.jsNull] => []
  | [v] => jsStringChars v
  | .undefined :: w :: rest => ',' :: jsJoinChars (w :: rest)
  | .jsNull :: w :: rest => ',' :: jsJoinChars (w :: rest)
  | v :: w :: rest => jsStringChars v ++ ',' :: jsJoinChars (w :: rest)

end

namespace TemplateEngine

/-- The path a marker body resolves through, as captured by the source regex
`/\{\{\s*([^}]+?)\s*\}\}/`: the greedy `\s*`/lazy-group interplay captures
the trimmed body, except that an all-whitespace body captures its final
character. -/
def capturedPath (body : List Char) : List Char :=
  let t := trimChars body
  if t = [] then (body.reverse.take 1) else t

/-- The replacement `replaceVariables` substitutes for one marker: the
resolved value stringified, or empty when the path resolves to `undefined`
(`value !== undefined ? String(value) : ''`). -/
def substVar (ctx : Ctx) (body : List Char) : List Char :=
  match resolvePathL ctx (capturedPath body) with
  | .undefined => []
  | v => jsStringChars v

/-- Scanner state for `replaceVariables`: how much of a candidate marker
`{{body}` has been consumed at the current position. -/
inductive RVState where
  | normal : RVState
  | seenOne : RVState
  | inBody : List Char → RVState
  | seenClose : List Char → RVState

/-- Text held in the scanner state, emitted verbatim when the candidate
marker cannot complete (end of input). -/
def rvFlush : RVState → List Char
  | .normal => []
  | .seenOne => ['{']
  | .inBody acc => '{' :: '{' :: acc.reverse
  | .seenClose acc => '{' :: '{' :: acc.reverse ++ ['}']

/-- The `template.replace(/\{\{\s*([^}]+?)\s*\}\}/g, ...)` scan of
`replaceVariables`, as a single left-to-right pass.  A marker is `{{`, a
non-empty body free of `}`, then `}}`; its replacement is `substVar`.  When
a candidate fails (first `}` not followed by `}`, or end of input) the
buffered text is emitted verbatim and scanning resumes at the very character
that broke the candidate — which is exactly where the regex engine's
advance-by-one rescan finds its next possible match, since no marker can
begin inside the failed candidate. -/
def rvGo (ctx : Ctx) : RVState → List Char → List Char
  | st, [] => rvFlush st
  | .normal, c :: rest =>
    if c = '{' then rvGo ctx .seenOne rest else c :: rvGo ctx .normal rest
  | .seenOne, c :: rest =>
    if c = '{' then rvGo ctx (.inBody []) rest else '{' :: c :: rvGo ctx .normal rest
  | .inBody acc, c :: rest =>
    if c = '}' then rvGo ctx (.seenClose acc) rest
    else rvGo ctx (.inBody (c :: acc)) rest
  | .seenClose acc, c :: rest =>
    if c = '}' then
      if acc = [] then '{' :: '{' :: '}' :: '}' :: rvGo ctx .normal rest
      else substVar ctx acc.reverse ++ rvGo ctx .normal rest
    else if c = '{' then '{' :: '{' :: acc.reverse ++ '}' :: rvGo ctx .seenOne rest
    else '{' :: '{' :: acc.reverse ++ '}' :: c :: rvGo ctx .normal rest

/-- `TemplateEngine.replaceVariables` (stage 1 of `render`). -/
def replaceVariables (ctx : Ctx) (template : List Char) : List Char :=
  rvGo ctx .normal template

/-- `TemplateEngine.resolveValue`: literal (quoted string, number, `true`,
`false`, `null`, `undefined`) or context path. -/
def resolveValue (ctx : Ctx) (raw : List Char) : JsVal :=
  let v := trimChars raw
  if 2 ≤ v.length && v.head? = some '\x22' && v.getLast? = some '\x22' then
    .str (String.mk (v.drop 1 |>.dropLast))
  else if numLitQ v ≠ none then
    .num ((numLitQ v).getD 0)
  else if v = "true".data then .bool true
  else if v = "false".data then .bool false
  else if v = "null".data then .jsNull
  else if v = "undefined".data then .undefined
  else resolvePathL ctx v
where
  /-- `/^-?\d+(\.\d+)?$/` plus `parseFloat`, exact as a rational. -/
  numLitQ (v : List Char) : Option ℚ :=
    let core := if v.head? = some '-' then v.drop 1 else v
    let parts := splitSubL ['.'] core
    let digitsOf (p : List Char) : Option Nat :=
      if p ≠ [] && p.all (fun c => '0' ≤ c && c ≤ '9')
      then some (p.foldl (fun n c => n * 10 + (c.toNat - '0'.toNat)) 0)
      else none
    let mag : Option ℚ :=
      match parts with
      | [ip] => (digitsOf ip).map (fun n => (n : ℚ))
      | [ip, fp] =>
        match digitsOf ip, digitsOf fp with
        | some i, some f => some ((i : ℚ) + mkRat f (10 ^ fp.length))
        | _, _ => none
      | _ => none
    mag.map (fun m => if v.head? = some '-' then -m else m)

/-- JS `ToNumber` on a string (trimmed; the empty string is `0`). -/
def strToNum (s : List Char) : Option ℚ :=
  let t := trimChars s
  if t = [] then some 0 else resolveValue.numLitQ t

/-- JS `==`, after booleans have been coerced to numbers (step one of the
loose-equality algorithm).  Arrays and objects compare via their primitive
coercion against primitives; comparing two distinct structured values is
reference equality in JS and is modelled as `false` (the engine never
compares a value against itself by reference). -/
def jsLooseEqCore : JsVal → JsVal → Bool
  | .undefined, .undefined => true
  | .undefined, .jsNull => true
  | .jsNull, .undefined => true
  | .jsNull, .jsNull => true
  | .undefined, _ => false
  | _, .undefined => false
  | .jsNull, _ => false
  | _, .jsNull => false
  | .num a, .num b => a = b
  | .str a, .str b => a = b
  | .num a, .str b => strToNum b.data = some a
  | .str a, .num b => strToNum a.data = some b
  | .arr l, .num b => strToNum (jsJoinChars l) = some b
  | .num a, .arr l => strToNum (jsJoinChars l) = some a
  | .arr l, .str b => String.mk (jsJoinChars l) = b
  | .str a, .arr l => a = String.mk (jsJoinChars l)
  | .obj _, .str b => "[object Object]" = b
  | .str a, .obj _ => a = "[object Object]"
  | .obj _, .num _ => false
  | .num _, .obj _ => false
  | .arr _, .arr _ => false
  | .obj _, .obj _ => false
  | .arr _, .obj _ => false
  | .obj _, .arr _ => false
  | .bool a, .bool b => a = b
  | .bool _, _ => false
  | _, .bool _ => false

/-- A boolean coerced to a number, as JS `==` does before comparing. -/
def coerceBool : JsVal → JsVal
  | .bool a => .num (if a then 1 else 0)
  | v => v

/-- JS loose equality `==` over the values the engine compares. -/
def jsLooseEq (v w : JsVal) : Bool :=
  jsLooseEqCore (coerceBool v) (coerceBool w)

/-- Condition evaluation in `processConditionals`: an `==` test when the
raw condition contains `==` (splitting on the first two pieces), otherwise
a truthiness check of the resolved condition. -/
def evalCond (ctx : Ctx) (condition : List Char) : Bool :=
  if (findSubL ['=', '='] condition).isSome then
    let parts := splitSubL ['=', '='] condition
    let leftValue := resolveValue ctx (trimChars (parts.getD 0 []))
    let rightValue := resolveValue ctx (trimChars (parts.getD 1 []))
    jsLooseEq leftValue rightValue
  else jsTruthy (resolveValue ctx condition)

/-- The literal `{{#if` that opens a conditional. -/
def ifTag : List Char := ['\x7b', '\x7b', '#', 'i', 'f']

/-- The literal `{{#else}}` marker. -/
def elseTag : List Char := ['\x7b', '\x7b', '#', 'e', 'l', 's', 'e', '\x7d', '\x7d']

/-- The literal `{{/if}}` closer. -/
def endIfTag : List Char := ['\x7b', '\x7b', '/', 'i', 'f', '\x7d', '\x7d']

/-- The literal `{{#each` that opens a loop. -/
def eachTag : List Char := ['\x7b', '\x7b', '#', 'e', 'a', 'c', 'h']

/-- The literal `{{/each}}` closer. -/
def endEachTag : List Char := ['\x7b', '\x7b', '/', 'e', 'a', 'c', 'h', '\x7d', '\x7d']

/-- Parse the head of a block directive after its literal tag: the regex
fragment `\s+([^}]+?)\s*\}\}` — at least one whitespace, a captured body up
to the first `}` (which must be followed by a second `}`), and the text
after the closing braces.  Returns `(captured, rest)`. -/
def parseDirectiveHead (s : List Char) : Option (List Char × List Char) :=
  let chunk := s.takeWhile (fun c => c ≠ '}')
  let after := s.drop chunk.length
  if startsWithL ['}', '}'] after && chunk.head?.any isWsChar then
    let body := chunk.dropWhile isWsChar
    if body = [] then
      if 2 ≤ chunk.length then some (chunk.reverse.take 1, after.drop 2) else none
    else
      some (trimChars body, after.drop 2)
  else none

/-- Block-body scan for `([\s\S]*?)(?:\{\{#else\}\}([\s\S]*?))?\{\{\/if\}\}`:
walking left to right, an `{{#else}}` that is followed by some `{{/if}}`
splits the block there; otherwise the first `{{/if}}` closes an else-less
block.  Returns `(ifContent, elseContent?, rest)`. -/
def scanIfBody : List Char → Option (List Char × Option (List Char) × List Char)
  | [] => none
  | c :: rest =>
    if startsWithL elseTag (c :: rest) then
      match findSubL endIfTag ((c :: rest).drop 9) with
      | some (e, after) => some ([], some e, after)
      | none =>
        (scanIfBody rest).map (fun pr => (c :: pr.1, pr.2.1, pr.2.2))
    else if startsWithL endIfTag (c :: rest) then
      some ([], none, (c :: rest).drop 7)
    else
      (scanIfBody rest).map (fun pr => (c :: pr.1, pr.2.1, pr.2.2))

/-- Attempt the full conditional regex at the current position: literal
`{{#if`, directive head, block body.  On success returns the replacement
(the selected branch, with a missing else branch contributing `''`) and the
rest of the input. -/
def tryIfMatch (ctx : Ctx) (s : List Char) : Option (List Char × List Char) :=
  if startsWithL ifTag s then
    match parseDirectiveHead (s.drop 5) with
    | some (condition, afterHead) =>
      match scanIfBody afterHead with
      | some (ifContent, elseContent, rest) =>
        some (if evalCond ctx condition then ifContent else elseContent.getD [], rest)
      | none => none
    | none => none
  else none

/-- Fueled scan of `processConditionals` (the fuel `length + 1` always
suffices: every step consumes at least one character). -/
def condF (ctx : Ctx) : Nat → List Char → List Char
  | 0, s => s
  | _ + 1, [] => []
  | fuel + 1, c :: rest =>
    match tryIfMatch ctx (c :: rest) with
    | some (replacement, rest2) => replacement ++ condF ctx fuel rest2
    | none => c :: condF ctx fuel rest

/-- `TemplateEngine.processConditionals` (stage 2 of `render`). -/
def processConditionals (ctx : Ctx) (template : List Char) : List Char :=
  condF ctx (template.length + 1) template

/-- Attempt the loop regex `\{\{#each\s+([^}]+?)\s*\}\}([\s\S]*?)\{\{\/each\}\}`
at the current position.  On success returns the loop's expansion — each
array element rendered through `replaceVariables` and `processConditionals`
under a context extended with `item` and `index` — and the rest of the
input; a non-array (or unresolved) target expands to `''`. -/
def tryEachMatch (ctx : Ctx) (s : List Char) : Option (List Char × List Char) :=
  if startsWithL eachTag s then
    match parseDirectiveHead (s.drop 7) with
    | some (itemsPath, afterHead) =>
      match findSubL endEachTag afterHead with
      | some (content, rest) =>
        let items := resolvePathL ctx itemsPath
        match items with
        | .arr elems =>
          let rendered := (elems.enum.map (fun pr =>
            let itemContext : Ctx :=
              ("item", pr.2) :: ("index", .num pr.1) :: ctx
            processConditionals itemContext
              (replaceVariables itemContext content))).flatten
          some (rendered, rest)
        | _ => some ([], rest)
      | none => none
    | none => none
  else none

/-- Fueled scan of `processLoops`. -/
def loopF (ctx : Ctx) : Nat → List Char → List Char
  | 0, s => s
  | _ + 1, [] => []
  | fuel + 1, c :: rest =>
    match tryEachMatch ctx (c :: rest) with
    | some (replacement, rest2) => replacement ++ loopF ctx fuel rest2
    | none => c :: loopF ctx fuel rest

/-- `TemplateEngine.processLoops` (stage 3 of `render`). -/
def processLoops (ctx : Ctx) (template : List Char) : List Char :=
  loopF ctx (template.length + 1) template

/-- A registered helper: a function from the resolved argument list to a
string, or `none` when the underlying JS function throws (the engine
catches this and substitutes `''`). -/
abbrev HelperFn := List JsVal → Option String

/-- Helper registry (a JS `Map` keyed by helper name). -/
abbrev HelperMap := List (String × HelperFn)

/-- `Map.get` for helpers. -/
def helperLookup (key : String) : HelperMap → Option HelperFn
  | [] => none
  | (k, h) :: rest => if k = key then some h else helperLookup key rest

/-- Argument-capture parse of the helper regex after the name:
`(?:\s+([^}]+?))?\}\}` — either directly `}}` (no capture; defaulted to
`''` by the callback), or at least one whitespace then a lazy body up to
`}}` with no trailing trim (the regex has no `\s*` before `\}\}` here; an
all-whitespace chunk captures its final character).  Returns the captured
argument string and the rest after `}}`. -/
def parseHelperArgs (s : List Char) : Option (List Char × List Char) :=
  if startsWithL ['}', '}'] s then some ([], s.drop 2)
  else
    let chunk := s.takeWhile (fun c => c ≠ '}')
    let after := s.drop chunk.length
    if startsWithL ['}', '}'] after && chunk.head?.any isWsChar then
      let body := chunk.dropWhile isWsChar
      if body = [] then
        if 2 ≤ chunk.length then some (chunk.reverse.take 1, after.drop 2) else none
      else some (body, after.drop 2)
    else none

/-- Attempt the helper regex `\{\{(\w+)(?:\s+([^}]+?))?\}\}` at the current
position.  On success returns the replacement — the helper's result, the
untouched marker text when the name is unregistered, or `''` when the
helper throws — together with the rest of the input. -/
def tryHelperMatch (helpers : HelperMap) (ctx : Ctx) (s : List Char) :
    Option (List Char × List Char) :=
  if startsWithL ['{', '{'] s then
    let name := (s.drop 2).takeWhile isWordChar
    if name = [] then none
    else
      match parseHelperArgs (s.drop (2 + name.length)) with
      | some (argsString, rest) =>
        let matchText := s.take (s.length - rest.length)
        match helperLookup (String.mk name) helpers with
        | none => some (matchText, rest)
        | some helper =>
          let args := (splitWsL argsString).map (fun a => resolveValue ctx a)
          match helper args with
          | some out => some (out.data, rest)
          | none => some ([], rest)
      | none => none
  else none

/-- Fueled scan of `processHelpers`. -/
def helpF (helpers : HelperMap) (ctx : Ctx) : Nat → List Char → List Char
  | 0, s => s
  | _ + 1, [] => []
  | fuel + 1, c :: rest =>
    match tryHelperMatch helpers ctx (c :: rest) with
    | some (replacement, rest2) => replacement ++ helpF helpers ctx fuel rest2
    | none => c :: helpF helpers ctx fuel rest

/-- `TemplateEngine.processHelpers` (stage 4 of `render`). -/
def processHelpers (helpers : HelperMap) (ctx : Ctx) (template : List Char) :
    List Char :=
  helpF helpers ctx (template.length + 1) template

/-- The four-stage body of `render`, applied to a template's text. -/
def renderBody (helpers : HelperMap) (ctx : Ctx) (template : List Char) :
    List Char :=
  processHelpers helpers ctx
    (processLoops ctx (processConditionals ctx (replaceVariables ctx template)))

/-- The engine's mutable state: the `templates` and `helpers` maps. -/
structure State where
  templates : List (String × String)
  helpers : HelperMap

/-- JS `Map.set`: replaces the value in place when the key exists
(preserving insertion order), otherwise appends. -/
def mapSet {β : Type} (m : List (String × β)) (key : String) (v : β) :
    List (String × β) :=
  match m with
  | [] => [(key, v)]
  | (k, w) :: rest => if k = key then (key, v) :: rest else (k, w) :: mapSet rest key v

/-- JS `Map.get` (first — unique — binding). -/
def mapGet {β : Type} (key : String) : List (String × β) → Option β
  | [] => none
  | (k, v) :: rest => if k = key then some v else mapGet key rest

/-- `TemplateEngine.registerTemplate`: unconditional `Map.set`. -/
def registerTemplate (st : State) (name template : String) : State :=
  { st with templates := mapSet st.templates name template }

/-- `TemplateEngine.registerHelper`: unconditional `Map.set`. -/
def registerHelper (st : State) (name : String) (helper : HelperFn) : State :=
  { st with helpers := mapSet st.helpers name helper }

/-- The single error `render` can throw. -/
inductive RenderErr where
  | templateNotFound : String → RenderErr
deriving DecidableEq

/-- `TemplateEngine.render`: looks up the template and runs the four-stage
pipeline.  The guard is the source's `if (!template)`, so a name registered
with the empty string is also rejected as not found (empty string is falsy
in JS). -/
def render (st : State) (templateName : String) (context : Ctx) :
    Except RenderErr String :=
  match mapGet templateName st.templates with
  | none => .error (.templateNotFound templateName)
  | some template =>
    if template = "" then .error (.templateNotFound templateName)
    else .ok (String.mk (renderBody st.helpers context template.data))

end TemplateEngine

/-! ## Code generator (`CodeGenerator` of section 5.3) -/

namespace CodeGenerator

/-- A generator configuration (`TemplateConfig` of section 5.2): the four
artifact templates plus optional helpers. -/
structure TemplateConfig where
  name : String
  framework : String
  language : String
  component : String
  page : String
  styles : String
  index : String
  helpers : TemplateEngine.HelperMap

/-- The generator's state: its embedded template engine, the registered
configurations, and the active-template name (`null` initially). -/
structure State where
  templateEngine : TemplateEngine.State
  templates : List (String × TemplateConfig)
  activeTemplate : Option String

/-- A freshly constructed `CodeGenerator` (`registerCoreHelpers` is an
empty stub in the source). -/
def init : State :=
  { templateEngine := { templates := [], helpers := [] }, templates := [], activeTemplate := none }

/-- `CodeGenerator.registerTemplate`: registers the four artifact templates
under `name:kind` keys (in `Object.entries` order: component, page, styles,
index), registers the configuration's helpers, and stores the
configuration. -/
def registerTemplate (g : State) (config : TemplateConfig) : State :=
  let e1 := TemplateEngine.registerTemplate g.templateEngine
    (config.name ++ ":component") config.component
  let e2 := TemplateEngine.registerTemplate e1 (config.name ++ ":page") config.page
  let e3 := TemplateEngine.registerTemplate e2 (config.name ++ ":styles") config.styles
  let e4 := TemplateEngine.registerTemplate e3 (config.name ++ ":index") config.index
  let e5 := config.helpers.foldl
    (fun e nh => TemplateEngine.registerHelper e nh.1 nh.2) e4
  { templateEngine := e5,
    templates := TemplateEngine.mapSet g.templates config.name config,
    activeTemplate := g.activeTemplate }

/-- `CodeGenerator.setActiveTemplate`: throws when the name is not a
registered configuration. -/
def setActiveTemplate (g : State) (name : String) :
    Except TemplateEngine.RenderErr State :=
  match TemplateEngine.mapGet name g.templates with
  | none => .error (.templateNotFound name)
  | some _ => .ok { g with activeTemplate := some name }

/-- `CodeGenerator.getDefaultTemplateName`:
`Array.from(this.templates.keys())[0]` — the first registered
configuration's name, or JS `undefined` (`none`) when none is registered.
-/
def getDefaultTemplateName (g : State) : Option String :=
  (g.templates.map Prod.fst).head?

/-- `this.activeTemplate || this.getDefaultTemplateName()`: JS `||` falls
through on the falsy values `null` and `""`. -/
def selectedTemplateName (g : State) : Option String :=
  match g.activeTemplate with
  | some s => if s = "" then getDefaultTemplateName g else some s
  | none => getDefaultTemplateName g

/-- A JS template-literal interpolation `${x}` of a possibly-undefined
string: `undefined` interpolates as the text `"undefined"`. -/
def jsInterpOpt : Option String → String
  | some s => s
  | none => "undefined"

/-- A JS template-literal interpolation of a context field (used for the
generated filenames, `${context.componentName}`). -/
def jsInterpField (ctx : Ctx) (key : String) : String :=
  match fieldLookup key ctx with
  | some .undefined => "undefined"
  | some v => String.mk (jsStringChars v)
  | none => "undefined"

/-- One generated artifact: content plus filename. -/
structure Artifact where
  content : String
  filename : String
deriving DecidableEq

/-- `GeneratedCode` for a component: `main`, `styles` and `index`
artifacts. -/
structure GeneratedCode where
  main : Artifact
  styles : Artifact
  index : Artifact
deriving DecidableEq

/-- The failures `generateComponent` can surface.  The source only ever
throws the template engine's template-not-found error, or a `TypeError`
when it dereferences `templates.get(templateName)!` on an absent
configuration.  `noGeneratorRegisteredError` is modelled from the spec: the
spec's §4.3 claims a dedicated `NoGeneratorRegisteredError` when no
generator configuration is registered; no such error exists in the source,
and the constructor is present only so the claim can be stated. -/
inductive GenErr where
  | render : TemplateEngine.RenderErr → GenErr
  | typeErrorUndefinedConfig : GenErr
  | noGeneratorRegisteredError : GenErr
deriving DecidableEq

/-- `CodeGenerator.generateComponent`.  The schema analysis
(`analyzeComponent` and its extractors) is not part of the source corpus,
so the already-built render context is taken as a parameter; this function
embeds the dispatch, rendering and assembly that the source does perform.
The template name is interpolated into engine keys with JS semantics, so an
absent configuration yields the literal key `"undefined:component"`; the
configuration itself is dereferenced only after the three renders, which is
where the non-null assertion `templates.get(templateName)!` blows up as a
`TypeError` if reached with no configuration. -/
def generateComponent (g : State) (context : Ctx) (isModule : Bool) :
    Except GenErr GeneratedCode :=
  let templateName := selectedTemplateName g
  let tname := jsInterpOpt templateName
  let templateConfig :=
    match templateName with
    | some s => TemplateEngine.mapGet s g.templates
    | none => none
  match TemplateEngine.render g.templateEngine (tname ++ ":component") context with
  | .error e => .error (.render e)
  | .ok mainCode =>
    match TemplateEngine.render g.templateEngine (tname ++ ":styles") context with
    | .error e => .error (.render e)
    | .ok styleCode =>
      match TemplateEngine.render g.templateEngine (tname ++ ":index") context with
      | .error e => .error (.render e)
      | .ok indexCode =>
        match templateConfig with
        | none => .error .typeErrorUndefinedConfig
        | some cfg =>
          let cname := jsInterpField context "componentName"
          .ok
            { main :=
                { content := mainCode,
                  filename :=
                    cname ++ "." ++ (if cfg.language = "typescript" then "tsx" else "jsx") },
              styles :=
                { content := styleCode,
                  filename :=
                    if isModule then cname ++ ".module.css" else cname ++ ".css" },
              index :=
                { content := indexCode,
                  filename :=
                    "index." ++ (if cfg.language = "typescript" then "ts" else "js") } }

end CodeGenerator

/-! ## Dynamic-import manager (`DynamicImportManager` of section 6.2) -/

namespace DynamicImportManager

/-- One registered component import: path and usage weight. -/
structure ImportEntry where
  path : String
  weight : ℚ
deriving DecidableEq

/-- The manager's state. -/
structure State where
  importMap : List (String × ImportEntry)
  bundles : List (String × List String)

/-- `DynamicImportManager.registerComponent` (default weight `1`). -/
def registerComponent (m : State) (name path : String) (weight : ℚ := 1) : State :=
  { m with importMap := TemplateEngine.mapSet m.importMap name ⟨path, weight⟩ }

/-- A used component joined with its registered entry. -/
structure UsedComponent where
  name : String
  path : String
  weight : ℚ
deriving DecidableEq

/-- `usedComponents.filter(name => importMap.has(name)).map(name =>
({name, ...importMap.get(name)!}))`. -/
def usedEntries (m : State) (usedComponents : List String) : List UsedComponent :=
  usedComponents.filterMap (fun name =>
    (TemplateEngine.mapGet name m.importMap).map
      (fun e => ⟨name, e.path, e.weight⟩))

/-- Insert into a weight-descending list, after any earlier element of equal
or larger weight (the stable behaviour of `Array.prototype.sort` with
comparator `(a, b) => b.weight - a.weight`). -/
def insertByWeight (c : UsedComponent) : List UsedComponent → List UsedComponent
  | [] => [c]
  | d :: rest =>
    if d.weight ≤ c.weight then c :: d :: rest else d :: insertByWeight c rest

/-- `[...components].sort((a, b) => b.weight - a.weight)`: stable sort by
descending weight. -/
def sortByWeight : List UsedComponent → List UsedComponent
  | [] => []
  | c :: rest => insertByWeight c (sortByWeight rest)

/-- The sorted, used, registered components of one
`generateOptimizedImports` call. -/
def sortedComponents (m : State) (usedComponents : List String) :
    List UsedComponent :=
  sortByWeight (usedEntries m usedComponents)

/-- The weight threshold `0.8` separating eager from lazy imports. -/
def eagerThreshold : ℚ := mkRat 8 10

/-- `import ${name} from '${path}';` -/
def eagerImportLine (name path : String) : String :=
  "import " ++ name ++ " from \x27" ++ path ++ "\x27;"

/-- `const ${name} = React.lazy(() => import('${path}'));` -/
def lazyImportLine (name path : String) : String :=
  "const " ++ name ++ " = React.lazy(() => import(\x27" ++ path ++ "\x27));"

/-- The per-component line: eager import above the threshold, lazy wrapper
otherwise. -/
def importLine (c : UsedComponent) : String :=
  if eagerThreshold < c.weight then eagerImportLine c.name c.path
  else lazyImportLine c.name c.path

/-- `import React, { lazy, Suspense } from 'react';` -/
def reactLazyImport : String :=
  "import React, \x7b lazy, Suspense \x7d from \x27react\x27;"

/-- `import React from 'react';` -/
def reactPlainImport : String := "import React from \x27react\x27;"

/-- `sortedComponents.some(c => c.weight <= 0.8)`. -/
def hasLazy (cs : List UsedComponent) : Bool :=
  cs.any (fun c => c.weight ≤ eagerThreshold)

/-- The emitted lines of `DynamicImportManager.generateOptimizedImports`:
the React import (with the deferred-loading primitives exactly when some
component is lazy) followed by the per-component lines in descending-weight
order. -/
def generateOptimizedImportLines (m : State) (usedComponents : List String) :
    List String :=
  let sorted := sortedComponents m usedComponents
  (if hasLazy sorted then reactLazyImport else reactPlainImport)
    :: sorted.map importLine

/-- `DynamicImportManager.generateOptimizedImports`:
`[reactImport, ...imports].join('\n')`. -/
def generateOptimizedImports (m : State) (usedComponents : List String) : String :=
  String.intercalate "\n" (generateOptimizedImportLines m usedComponents)

end DynamicImportManager

/-! ## Code optimizer (`CodeOptimizer` of section 2.4)

The source's `CodeOptimizer` methods delegate to helper routines
(`findRepeatingPatterns`, `extractPatterns`, `analyzeImports`,
`removeUnusedImports`, `mergeStyles`, `removeUnusedStyles`) that are not
part of the source corpus, so the three passes are modelled from the spec's
§4.4 description, over code represented as its list of lines. -/

namespace CodeOptimizer

/-- Does a line open an `import` statement? -/
def isImportLine (l : String) : Bool := startsWithL "import ".data l.data

/-- The generated body: every non-import line. -/
def bodyLines (code : List String) : List String :=
  code.filter (fun l => !isImportLine l)

/-- The names an import line binds: the comma-separated identifiers between
its braces, or its default-import identifier. -/
def importedNames (l : String) : List String :=
  match findSubL ['\x7b'] l.data with
  | some (_, afterBrace) =>
    (splitSubL [','] (afterBrace.takeWhile (fun c => c ≠ '\x7d'))).map
      (fun n => String.mk (trimChars n))
  | none => [((splitWsL l.data).map (fun w => String.mk w)).getD 1 ""]

/-- Is `name` referenced somewhere in the body? -/
def referencedInBody (body : List String) (name : String) : Bool :=
  body.any (fun l => (findSubL name.data l.data).isSome)

/-- Modelled from the spec: import optimization — "computes the set of
referenced names in the generated body; removes import statements whose
named bindings are entirely unreferenced" (§4.4).  A line survives unless
it is an import none of whose bound names occurs in a non-import line. -/
def optimizeImports (code : List String) : List String :=
  code.filter (fun l =>
    !isImportLine l || (importedNames l).any (referencedInBody (bodyLines code)))

/-- Keep the first occurrence of each line, dropping later exact
repetitions. -/
def dedupKeepFirst (seen : List String) : List String → List String
  | [] => []
  | l :: rest =>
    if l ∈ seen then dedupKeepFirst seen rest
    else l :: dedupKeepFirst (l :: seen) rest

/-- Modelled from the spec: deduplication — "detects repeated textual code
fragments … and factors them into shared declarations; detects repeated
style rule blocks and merges identical declarations" (§4.4).  Identical
fragments are merged into their first occurrence. -/
def deduplicate (code : List String) : List String := dedupKeepFirst [] code

/-- Modelled from the spec: style optimization — "merges/deduplicates
repeated style rules" and "removes unused styles" (§2 item 5, §4.4),
parameterized by which style rules the generated markup uses.  Identical
rules are merged, then unused rules dropped. -/
def optimizeStyles (used : String → Bool) (styles : List String) : List String :=
  (dedupKeepFirst [] styles).filter used

end CodeOptimizer

/-! ## Remaining definitions: template pieces (for reasoning about stage 1) -/

namespace TemplateEngine

/-- A template cut into literal text and `{{…}}` markers. -/
inductive TPiece where
  | text : List Char → TPiece
  | marker : List Char → TPiece

/-- The template a piece list denotes. -/
def flatPieces : List TPiece → List Char
  | [] => []
  | .text s :: rest => s ++ flatPieces rest
  | .marker b :: rest => '{' :: '{' :: (b ++ '}' :: '}' :: flatPieces rest)

/-- What stage 1 turns a piece list into: text kept, markers substituted. -/
def substPieces (ctx : Ctx) : List TPiece → List Char
  | [] => []
  | .text s :: rest => s ++ substPieces ctx rest
  | .marker b :: rest => substVar ctx b ++ substPieces ctx rest

/-- Well-formedness of a piece: literal text free of `{`, marker bodies
non-empty and free of `}` (the shape the interpolation regex matches). -/
def pieceOk : TPiece → Bool
  | .text s => decide ('{' ∉ s)
  | .marker b => decide (b ≠ []) && decide ('}' ∉ b)

/-- Does the piece's stage-1 replacement avoid introducing `{`? -/
def pieceSubstOk (ctx : Ctx) : TPiece → Bool
  | .text _ => true
  | .marker b => decide ('{' ∉ substVar ctx b)

end TemplateEngine

/-! ## Supporting lemmas -/

namespace TemplateEngine

theorem mapGet_mapSet_self {β : Type} (m : List (String × β)) (key : String) (v : β) :
    mapGet key (mapSet m key v) = some v := by
  induction m with
  | nil => simp [mapSet, mapGet]
  | cons kv rest ih =>
    obtain ⟨k, w⟩ := kv
    by_cases hk : k = key
    · simp [mapSet, hk, mapGet]
    · simp [mapSet, hk, mapGet, ih]

theorem rvGo_normal_no_brace (ctx : Ctx) (s : List Char) (h : '{' ∉ s) :
    rvGo ctx .normal s = s := by
  induction s with
  | nil => rfl
  | cons c rest ih =>
    have hc : ¬ (c = '{') := by intro e; subst e; exact h (List.mem_cons_self _ _)
    have hrest : '{' ∉ rest := fun hm => h (List.mem_cons_of_mem c hm)
    simp [rvGo, hc, ih hrest]

theorem rvGo_normal_append (ctx : Ctx) (t : List Char) (pre : List Char)
    (hpre : '{' ∉ pre) :
    rvGo ctx .normal (pre ++ t) = pre ++ rvGo ctx .normal t := by
  induction pre with
  | nil => simp
  | cons c rest ih =>
    have hc : ¬ (c = '{') := by intro e; subst e; exact hpre (List.mem_cons_self _ _)
    have hrest : '{' ∉ rest := fun hm => hpre (List.mem_cons_of_mem c hm)
    simp [rvGo, hc, ih hrest]

theorem rvGo_inBody_closes (ctx : Ctx) (post : List Char) :
    ∀ body acc : List Char, '}' ∉ body → acc ≠ [] →
      rvGo ctx (.inBody acc) (body ++ '}' :: '}' :: post) =
        substVar ctx (acc.reverse ++ body) ++ rvGo ctx .normal post := by
  intro body
  induction body with
  | nil =>
    intro acc _ hacc
    simp [rvGo, hacc]
  | cons c bodyRest ih =>
    intro acc hb hacc
    have hc : ¬ (c = '}') := by intro e; subst e; exact hb (List.mem_cons_self _ _)
    have hbr : '}' ∉ bodyRest := fun hm => hb (List.mem_cons_of_mem c hm)
    have step := ih (c :: acc) hbr (by simp)
    simp only [List.cons_append]
    simp [rvGo, hc]
    rw [step]
    simp

theorem replaceVariables_marker (ctx : Ctx) (body post : List Char)
    (hb : body ≠ []) (hbrace : '}' ∉ body) :
    replaceVariables ctx ('{' :: '{' :: (body ++ '}' :: '}' :: post)) =
      substVar ctx body ++ replaceVariables ctx post := by
  cases body with
  | nil => exact absurd rfl hb
  | cons c bodyRest =>
    have hc : ¬ (c = '}') := by intro e; subst e; exact hbrace (List.mem_cons_self _ _)
    have hbr : '}' ∉ bodyRest := fun hm => hbrace (List.mem_cons_of_mem c hm)
    unfold replaceVariables
    simp only [List.cons_append]
    simp [rvGo, hc]
    rw [rvGo_inBody_closes ctx post bodyRest [c] hbr (by simp)]
    simp

theorem tryIfMatch_none (ctx : Ctx) (c : Char) (rest : List Char) (hc : ¬ (c = '{')) :
    tryIfMatch ctx (c :: rest) = none := by
  have h : startsWithL ifTag (c :: rest) = false := by
    simp [ifTag, startsWithL]
    intro e
    exact absurd e.symm hc
  simp [tryIfMatch, h]

theorem tryEachMatch_none (ctx : Ctx) (c : Char) (rest : List Char) (hc : ¬ (c = '{')) :
    tryEachMatch ctx (c :: rest) = none := by
  have h : startsWithL eachTag (c :: rest) = false := by
    simp [eachTag, startsWithL]
    intro e
    exact absurd e.symm hc
  simp [tryEachMatch, h]

theorem tryHelperMatch_none (helpers : HelperMap) (ctx : Ctx) (c : Char)
    (rest : List Char) (hc : ¬ (c = '{')) :
    tryHelperMatch helpers ctx (c :: rest) = none := by
  have h : startsWithL ['{', '{'] (c :: rest) = false := by
    simp [startsWithL]
    intro e
    exact absurd e.symm hc
  simp [tryHelperMatch, h]

theorem condF_id (ctx : Ctx) :
    ∀ (fuel : Nat) (s : List Char), '{' ∉ s → condF ctx fuel s = s := by
  intro fuel
  induction fuel with
  | zero => intro s _; rfl
  | succ f ih =>
    intro s h
    cases s with
    | nil => rfl
    | cons c rest =>
      have hc : ¬ (c = '{') := by intro e; subst e; exact h (List.mem_cons_self _ _)
      have hrest : '{' ∉ rest := fun hm => h (List.mem_cons_of_mem c hm)
      simp [condF, tryIfMatch_none ctx c rest hc, ih rest hrest]

theorem loopF_id (ctx : Ctx) :
    ∀ (fuel : Nat) (s : List Char), '{' ∉ s → loopF ctx fuel s = s := by
  intro fuel
  induction fuel with
  | zero => intro s _; rfl
  | succ f ih =>
    intro s h
    cases s with
    | nil => rfl
    | cons c rest =>
      have hc : ¬ (c = '{') := by intro e; subst e; exact h (List.mem_cons_self _ _)
      have hrest : '{' ∉ rest := fun hm => h (List.mem_cons_of_mem c hm)
      simp [loopF, tryEachMatch_none ctx c rest hc, ih rest hrest]

theorem helpF_id (helpers : HelperMap) (ctx : Ctx) :
    ∀ (fuel : Nat) (s : List Char), '{' ∉ s → helpF helpers ctx fuel s = s := by
  intro fuel
  induction fuel with
  | zero => intro s _; rfl
  | succ f ih =>
    intro s h
    cases s with
    | nil => rfl
    | cons c rest =>
      have hc : ¬ (c = '{') := by intro e; subst e; exact h (List.mem_cons_self _ _)
      have hrest : '{' ∉ rest := fun hm => h (List.mem_cons_of_mem c hm)
      simp [helpF, tryHelperMatch_none helpers ctx c rest hc, ih rest hrest]

theorem renderBody_of_no_brace (helpers : HelperMap) (ctx : Ctx) (t : List Char)
    (hout : '{' ∉ replaceVariables ctx t) :
    renderBody helpers ctx t = replaceVariables ctx t := by
  unfold renderBody processConditionals processLoops processHelpers
  rw [condF_id ctx _ _ hout, loopF_id ctx _ _ hout, helpF_id helpers ctx _ _ hout]

theorem replaceVariables_flatPieces (ctx : Ctx) :
    ∀ ps : List TPiece, (∀ p ∈ ps, pieceOk p = true) →
      replaceVariables ctx (flatPieces ps) = substPieces ctx ps := by
  intro ps h
  induction ps with
  | nil => rfl
  | cons p rest ih =>
    have hrest : ∀ q ∈ rest, pieceOk q = true := fun q hq => h q (List.mem_cons_of_mem p hq)
    cases p with
    | text s =>
      have hs : '{' ∉ s := of_decide_eq_true (h (.text s) (List.mem_cons_self _ _))
      show replaceVariables ctx (s ++ flatPieces rest) = s ++ substPieces ctx rest
      unfold replaceVariables
      rw [rvGo_normal_append ctx (flatPieces rest) s hs]
      exact congrArg (s ++ ·) (ih hrest)
    | marker b =>
      have hbok := h (.marker b) (List.mem_cons_self _ _)
      have hb : b ≠ [] := by
        simp [pieceOk] at hbok; exact hbok.1
      have hbr : '}' ∉ b := by
        simp [pieceOk] at hbok; exact hbok.2
      show replaceVariables ctx ('{' :: '{' :: (b ++ '}' :: '}' :: flatPieces rest)) =
        substVar ctx b ++ substPieces ctx rest
      rw [replaceVariables_marker ctx b (flatPieces rest) hb hbr]
      exact congrArg (substVar ctx b ++ ·) (ih hrest)

theorem substPieces_no_brace (ctx : Ctx) :
    ∀ ps : List TPiece, (∀ p ∈ ps, pieceOk p = true) →
      (∀ p ∈ ps, pieceSubstOk ctx p = true) → '{' ∉ substPieces ctx ps := by
  intro ps h hsub
  induction ps with
  | nil => simp [substPieces]
  | cons p rest ih =>
    have hrest : ∀ q ∈ rest, pieceOk q = true := fun q hq => h q (List.mem_cons_of_mem p hq)
    have hsubrest : ∀ q ∈ rest, pieceSubstOk ctx q = true :=
      fun q hq => hsub q (List.mem_cons_of_mem p hq)
    cases p with
    | text s =>
      have hs : '{' ∉ s := of_decide_eq_true (h (.text s) (List.mem_cons_self _ _))
      show '{' ∉ s ++ substPieces ctx rest
      simp [List.mem_append]
      exact ⟨hs, ih hrest hsubrest⟩
    | marker b =>
      have hs : '{' ∉ substVar ctx b :=
        of_decide_eq_true (hsub (.marker b) (List.mem_cons_self _ _))
      show '{' ∉ substVar ctx b ++ substPieces ctx rest
      simp [List.mem_append]
      exact ⟨hs, ih hrest hsubrest⟩

end TemplateEngine

/-! ## Claim theorems -/

/-- Claim C1 (code bug evaluation): for the registered template
`{{#if a == b}}X{{#else}}Y{{/if}}`, `render` returns `"XY"` under both
contexts — including `{a:1, b:2}` — because stage 1 (`replaceVariables`)
already consumes the `{{#if …}}`, `{{#else}}` and `{{/if}}` markers as
unresolvable variables before `processConditionals` runs, leaving both
branch texts and never evaluating the condition.  The claim's expected
values `"X"` and `"Y"` are not produced. -/
theorem conditional_markers_consumed_eval :
    TemplateEngine.render
        { templates :=
            [("component", "\x7b\x7b#if a == b\x7d\x7dX\x7b\x7b#else\x7d\x7dY\x7b\x7b/if\x7d\x7d")],
          helpers := [] }
        "component" [("a", .num 1), ("b", .num 1)] = .ok "XY" ∧
    TemplateEngine.render
        { templates :=
            [("component", "\x7b\x7b#if a == b\x7d\x7dX\x7b\x7b#else\x7d\x7dY\x7b\x7b/if\x7d\x7d")],
          helpers := [] }
        "component" [("a", .num 1), ("b", .num 2)] = .ok "XY" := ⟨rfl, rfl⟩

/-- Claim C2 (code bug evaluation): for the registered template
`{{#each items}}[{{item}}]{{/each}}`, `render` returns `"[]"` both when
`items` is `[1,2,3]` and when it is absent: stage 1 consumes the
`{{#each items}}`, `{{item}}` and `{{/each}}` markers as unresolvable
variables before `processLoops` runs, so the loop never executes.  The
claim's expected values `"[1][2][3]"` and `""` are not produced. -/
theorem loop_markers_consumed_eval :
    TemplateEngine.render
        { templates :=
            [("component", "\x7b\x7b#each items\x7d\x7d[\x7b\x7bitem\x7d\x7d]\x7b\x7b/each\x7d\x7d")],
          helpers := [] }
        "component" [("items", .arr [.num 1, .num 2, .num 3])] = .ok "[]" ∧
    TemplateEngine.render
        { templates :=
            [("component", "\x7b\x7b#each items\x7d\x7d[\x7b\x7bitem\x7d\x7d]\x7b\x7b/each\x7d\x7d")],
          helpers := [] }
        "component" [] = .ok "[]" := ⟨rfl, rfl⟩

/-- Claim C3 (code bug evaluation): for the registered template
`{{unknownHelper x}}` with no helper registered, `render` returns `""`
rather than the untouched marker text: stage 1 consumes the marker as the
unresolvable variable path `unknownHelper x` before `processHelpers` — the
stage whose explicit unknown-helper branch would have preserved it — ever
sees it. -/
theorem unknown_helper_marker_consumed_eval :
    TemplateEngine.render
        { templates := [("component", "\x7b\x7bunknownHelper x\x7d\x7d")], helpers := [] }
        "component" [("x", .num 1)] = .ok "" := rfl

/-- Claim C4: for every registered template (with non-empty text, which is
what registration meaningfully provides — see C5) and every context,
`render` succeeds — it never throws because of a missing or undefined
context path — and every variable marker whose dot-separated path resolves
to `undefined` is replaced by the empty string by the interpolation stage.
-/
theorem render_total_unresolved_empty (st : TemplateEngine.State) (name t : String)
    (ctx : Ctx) (hfound : TemplateEngine.mapGet name st.templates = some t)
    (hne : t ≠ "") :
    TemplateEngine.render st name ctx =
        .ok (String.mk (TemplateEngine.renderBody st.helpers ctx t.data)) ∧
      ∀ pre body post : List Char, '{' ∉ pre → body ≠ [] → '}' ∉ body →
        resolvePathL ctx (TemplateEngine.capturedPath body) = .undefined →
        TemplateEngine.replaceVariables ctx
            (pre ++ '{' :: '{' :: (body ++ '}' :: '}' :: post)) =
          pre ++ TemplateEngine.replaceVariables ctx post := by
  constructor
  · unfold TemplateEngine.render
    rw [hfound]
    simp [hne]
  · intro pre body post hpre hb hbr hres
    have hm := TemplateEngine.replaceVariables_marker ctx body post hb hbr
    have hsub : TemplateEngine.substVar ctx body = [] := by
      simp [TemplateEngine.substVar, hres]
    rw [hsub] at hm
    unfold TemplateEngine.replaceVariables at hm ⊢
    rw [TemplateEngine.rvGo_normal_append ctx _ pre hpre, hm]
    simp

/-- Witness for C4 at concrete inputs: rendering a registered template
succeeds, and the unresolvable marker `{{q}}` inside `A{{q}}` vanishes. -/
theorem render_total_unresolved_empty_witness :
    TemplateEngine.render { templates := [("t", "ok")], helpers := [] } "t" [] = .ok "ok" ∧
      TemplateEngine.replaceVariables []
          (['A'] ++ '{' :: '{' :: (['q'] ++ '}' :: '}' :: [])) = ['A'] := by
  have h := render_total_unresolved_empty
    { templates := [("t", "ok")], helpers := [] } "t" "ok" [] rfl (by decide)
  exact ⟨h.1.trans rfl, (h.2 ['A'] ['q'] [] (by decide) (by decide) (by decide) rfl).trans rfl⟩

/-- Claim C5 counterexample: a name registered with the empty-string
template still fails with the template-not-found error, because the
source's guard is the JS falsy test `if (!template)` and `""` is falsy —
refuting "does not fail with that error for any registered name". -/
theorem empty_template_not_found :
    TemplateEngine.render { templates := [("t", "")], helpers := [] } "t" [] =
      .error (.templateNotFound "t") := rfl

/-- Claim C5 (amended): `render` fails with the template-not-found error
exactly when the name is unregistered or is registered with the
empty-string template; for any name registered with non-empty text it does
not fail with that error. -/
theorem render_not_found_characterization (st : TemplateEngine.State) (name : String)
    (ctx : Ctx) :
    TemplateEngine.render st name ctx = .error (.templateNotFound name) ↔
      TemplateEngine.mapGet name st.templates = none ∨
        TemplateEngine.mapGet name st.templates = some "" := by
  unfold TemplateEngine.render
  cases h : TemplateEngine.mapGet name st.templates with
  | none => simp
  | some t => by_cases ht : t = "" <;> simp [ht]

/-- Claim C9 counterexample: the render result can retain a `{{…}}` marker.
Rendering the registered template `{{a}}` under the context
`{a: "{{b}}"}`, stage 1 substitutes the value's text, stages 2–4 leave
`{{b}}` alone (no directive tag, and an unregistered helper name is kept),
so the final output is the marker `{{b}}` — refuting "the string returned
by render contains no remaining `{{…}}` marker". -/
theorem marker_reintroduction :
    TemplateEngine.render { templates := [("t", "\x7b\x7ba\x7d\x7d")], helpers := [] }
        "t" [("a", .str "\x7b\x7bb\x7d\x7d")] = .ok "\x7b\x7bb\x7d\x7d" ∧
      (findSubL ['\x7b', '\x7b'] "\x7b\x7bb\x7d\x7d".data).isSome = true := ⟨rfl, rfl⟩

/-- Claim C9 (amended): stage 1 consumes every `{{…}}` marker whose body
contains no `}` — directive markers included — substituting its resolved
value (empty when unresolved) before the conditional, loop and helper
stages run; and for a template made of brace-free text and such markers
whose substituted values introduce no `{`, the final render output
contains no `{` at all (hence no marker).  Without that proviso markers
can survive, as the counterexample shows. -/
theorem stage1_consumes_markers (st : TemplateEngine.State) (name : String) (ctx : Ctx)
    (ps : List TemplateEngine.TPiece)
    (hfound : TemplateEngine.mapGet name st.templates =
      some (String.mk (TemplateEngine.flatPieces ps)))
    (hne : TemplateEngine.flatPieces ps ≠ [])
    (hwf : ∀ p ∈ ps, TemplateEngine.pieceOk p = true)
    (hsub : ∀ p ∈ ps, TemplateEngine.pieceSubstOk ctx p = true) :
    TemplateEngine.render st name ctx =
        .ok (String.mk (TemplateEngine.substPieces ctx ps)) ∧
      '{' ∉ TemplateEngine.substPieces ctx ps ∧
      ∀ pre body post : List Char, '{' ∉ pre → body ≠ [] → '}' ∉ body →
        TemplateEngine.replaceVariables ctx
            (pre ++ '{' :: '{' :: (body ++ '}' :: '}' :: post)) =
          pre ++ TemplateEngine.substVar ctx body ++
            TemplateEngine.replaceVariables ctx post := by
  have hknof : '{' ∉ TemplateEngine.substPieces ctx ps :=
    TemplateEngine.substPieces_no_brace ctx ps hwf hsub
  have hrepl := TemplateEngine.replaceVariables_flatPieces ctx ps hwf
  refine ⟨?_, hknof, ?_⟩
  · unfold TemplateEngine.render
    rw [hfound]
    have hne2 : String.mk (TemplateEngine.flatPieces ps) ≠ "" := by
      intro e
      exact hne (congrArg String.data e)
    have hbody :
        TemplateEngine.renderBody st.helpers ctx
            (String.mk (TemplateEngine.flatPieces ps)).data =
          TemplateEngine.substPieces ctx ps := by
      show TemplateEngine.renderBody st.helpers ctx (TemplateEngine.flatPieces ps) = _
      rw [TemplateEngine.renderBody_of_no_brace st.helpers ctx _ (hrepl ▸ hknof), hrepl]
    simp [hne2, hbody]
  · intro pre body post hpre hb hbr
    have hm := TemplateEngine.replaceVariables_marker ctx body post hb hbr
    unfold TemplateEngine.replaceVariables at hm ⊢
    rw [TemplateEngine.rvGo_normal_append ctx _ pre hpre, hm, List.append_assoc]

/-- Witness for C9's amended theorem at a concrete template `A{{x}}` and
context `{x: 5}`: the render output is exactly `A5`. -/
theorem stage1_consumes_markers_witness :
    TemplateEngine.render
        { templates := [("t", String.mk (TemplateEngine.flatPieces
            [.text ['A'], .marker ['x']]))], helpers := [] }
        "t" [("x", .num 5)] = .ok "A5" := by
  have h := stage1_consumes_markers
    { templates := [("t", String.mk (TemplateEngine.flatPieces
        [.text ['A'], .marker ['x']]))], helpers := [] }
    "t" [("x", .num 5)] [.text ['A'], .marker ['x']] rfl (by decide)
    (by decide) (by decide)
  exact h.1.trans (congrArg Except.ok (by decide))

/-- Claim C10: `registerTemplate` and `registerHelper` are total functions
on the engine state (they cannot fail) and are last-write-wins — after
registering twice under one name, lookup yields the second value, and
`render` of that name behaves exactly as if only the second template had
been registered. -/
theorem register_last_write_wins (st : TemplateEngine.State) (name t1 t2 : String)
    (g1 g2 : TemplateEngine.HelperFn) (ctx : Ctx) :
    TemplateEngine.mapGet name
        (TemplateEngine.registerTemplate
          (TemplateEngine.registerTemplate st name t1) name t2).templates = some t2 ∧
    TemplateEngine.mapGet name
        (TemplateEngine.registerHelper
          (TemplateEngine.registerHelper st name g1) name g2).helpers = some g2 ∧
    TemplateEngine.render
        (TemplateEngine.registerTemplate
          (TemplateEngine.registerTemplate st name t1) name t2) name ctx =
      TemplateEngine.render (TemplateEngine.registerTemplate st name t2) name ctx := by
  refine ⟨?_, ?_, ?_⟩
  · simp [TemplateEngine.registerTemplate, TemplateEngine.mapGet_mapSet_self]
  · simp [TemplateEngine.registerHelper, TemplateEngine.mapGet_mapSet_self]
  · unfold TemplateEngine.render
    simp [TemplateEngine.registerTemplate, TemplateEngine.mapGet_mapSet_self]

namespace CodeOptimizer

theorem mem_dedupKeepFirst (x : String) :
    ∀ (l : List String) (seen : List String),
      x ∈ dedupKeepFirst seen l ↔ x ∈ l ∧ x ∉ seen := by
  intro l
  induction l with
  | nil => intro seen; simp [dedupKeepFirst]
  | cons a rest ih =>
    intro seen
    by_cases ha : a ∈ seen
    · simp only [dedupKeepFirst, if_pos ha]
      rw [ih seen]
      constructor
      · rintro ⟨hx, hs⟩
        exact ⟨List.mem_cons_of_mem a hx, hs⟩
      · rintro ⟨hx, hs⟩
        rcases List.mem_cons.mp hx with he | hm
        · exact absurd (he ▸ ha) hs
        · exact ⟨hm, hs⟩
    · simp only [dedupKeepFirst, if_neg ha]
      constructor
      · intro hx
        rcases List.mem_cons.mp hx with he | hm
        · exact ⟨he ▸ List.mem_cons_self a rest, he ▸ ha⟩
        · have := (ih (a :: seen)).mp hm
          refine ⟨List.mem_cons_of_mem a this.1, fun hs => this.2 (List.mem_cons_of_mem a hs)⟩
      · rintro ⟨hx, hs⟩
        rcases List.mem_cons.mp hx with he | hm
        · exact he ▸ List.mem_cons_self a _
        · by_cases hxa : x = a
          · exact hxa ▸ List.mem_cons_self a _
          · exact List.mem_cons_of_mem a ((ih (a :: seen)).mpr
              ⟨hm, fun hmem => (List.mem_cons.mp hmem).elim hxa hs⟩)

theorem dedupKeepFirst_nodup :
    ∀ (l : List String) (seen : List String), (dedupKeepFirst seen l).Nodup := by
  intro l
  induction l with
  | nil => intro seen; simp [dedupKeepFirst]
  | cons a rest ih =>
    intro seen
    by_cases ha : a ∈ seen
    · simpa [dedupKeepFirst, if_pos ha] using ih seen
    · simp only [dedupKeepFirst, if_neg ha]
      refine List.nodup_cons.mpr ⟨fun hmem => ?_, ih (a :: seen)⟩
      exact ((mem_dedupKeepFirst a rest (a :: seen)).mp hmem).2 (List.mem_cons_self a seen)

theorem dedupKeepFirst_of_nodup :
    ∀ (l : List String) (seen : List String), l.Nodup → (∀ x ∈ l, x ∉ seen) →
      dedupKeepFirst seen l = l := by
  intro l
  induction l with
  | nil => intro seen _ _; rfl
  | cons a rest ih =>
    intro seen hnd hs
    have ha : a ∉ seen := hs a (List.mem_cons_self a rest)
    have hrest : ∀ x ∈ rest, x ∉ a :: seen := by
      intro x hx
      intro hmem
      rcases List.mem_cons.mp hmem with he | hm
      · exact (List.nodup_cons.mp hnd).1 (he ▸ hx)
      · exact hs x (List.mem_cons_of_mem a hx) hm
    simp only [dedupKeepFirst, if_neg ha]
    rw [ih (a :: seen) (List.nodup_cons.mp hnd).2 hrest]

theorem deduplicate_idem (code : List String) :
    deduplicate (deduplicate code) = deduplicate code := by
  unfold deduplicate
  exact dedupKeepFirst_of_nodup _ [] (dedupKeepFirst_nodup code [])
    (fun x _ => List.not_mem_nil x)

theorem bodyLines_filter_keep (code : List String) (p : String → Bool) :
    bodyLines (code.filter (fun l => !isImportLine l || p l)) = bodyLines code := by
  unfold bodyLines
  rw [List.filter_filter]
  apply List.filter_congr
  intro l _
  cases h : isImportLine l <;> simp [h]

theorem optimizeImports_idem (code : List String) :
    optimizeImports (optimizeImports code) = optimizeImports code := by
  unfold optimizeImports
  rw [bodyLines_filter_keep code (fun l => (importedNames l).any (referencedInBody (bodyLines code)))]
  rw [List.filter_filter]
  apply List.filter_congr
  intro l _
  cases h : isImportLine l <;> simp [h]

theorem optimizeStyles_idem (used : String → Bool) (styles : List String) :
    optimizeStyles used (optimizeStyles used styles) = optimizeStyles used styles := by
  unfold optimizeStyles
  rw [dedupKeepFirst_of_nodup _ []
    ((dedupKeepFirst_nodup styles []).filter used)
    (fun x _ => List.not_mem_nil x)]
  rw [List.filter_filter]
  apply List.filter_congr
  intro l _
  cases h : used l <;> simp [h]

end CodeOptimizer

/-- Claim C7: every optimizer pass is idempotent — applying import
optimization, deduplication, or style optimization twice gives the same
result as applying it once (the passes are modelled from the spec's §4.4,
since their helper routines are not part of the source corpus). -/
theorem optimizer_passes_idempotent (code : List String) (used : String → Bool)
    (styles : List String) :
    CodeOptimizer.optimizeImports (CodeOptimizer.optimizeImports code) =
        CodeOptimizer.optimizeImports code ∧
      CodeOptimizer.deduplicate (CodeOptimizer.deduplicate code) =
        CodeOptimizer.deduplicate code ∧
      CodeOptimizer.optimizeStyles used (CodeOptimizer.optimizeStyles used styles) =
        CodeOptimizer.optimizeStyles used styles :=
  ⟨CodeOptimizer.optimizeImports_idem code, CodeOptimizer.deduplicate_idem code,
    CodeOptimizer.optimizeStyles_idem used styles⟩

/-- Claim C8 counterexample: with no generator configuration registered,
`generateComponent` fails — but with the template engine's
template-not-found error for the key `"undefined:component"` (the JS
interpolation of an undefined template name), not with a dedicated
no-generator-registered error. -/

theorem no_generator_error_is_template_not_found :
    CodeGenerator.generateComponent CodeGenerator.init [] false =
        .error (.render (.templateNotFound "undefined:component")) ∧
      CodeGenerator.generateComponent CodeGenerator.init [] false ≠
        .error .noGeneratorRegisteredError := by
  have h1 : CodeGenerator.generateComponent CodeGenerator.init [] false =
      .error (.render (.templateNotFound "undefined:component")) := rfl
  refine ⟨h1, ?_⟩
  rw [h1]
  simp

/-- Claim C8 (amended): `generateComponent` dispatches on the currently
active generator configuration (when set and non-empty); when unset (or the
falsy `""`), it falls back to the first registered configuration; and when
no configuration is registered at all, the call still fails with a single
descriptive error — but it is the template-not-found error for
`"undefined:component"`, not a dedicated `NoGeneratorRegisteredError`
(which the source never defines). -/
theorem generator_dispatch (g : CodeGenerator.State) (ctx : Ctx) (b : Bool) :
    (∀ s : String, g.activeTemplate = some s → s ≠ "" →
        CodeGenerator.selectedTemplateName g = some s) ∧
    (∀ (n : String) (c : CodeGenerator.TemplateConfig)
        (rest : List (String × CodeGenerator.TemplateConfig)),
        (g.activeTemplate = none ∨ g.activeTemplate = some "") →
        g.templates = (n, c) :: rest →
        CodeGenerator.selectedTemplateName g = some n) ∧
    (g.templates = [] → g.activeTemplate = none →
        TemplateEngine.mapGet "undefined:component" g.templateEngine.templates = none →
        CodeGenerator.generateComponent g ctx b =
          .error (.render (.templateNotFound "undefined:component"))) := by
  refine ⟨?_, ?_, ?_⟩
  · intro s ha hs
    simp [CodeGenerator.selectedTemplateName, ha, hs]
  · intro n c rest hact htmp
    rcases hact with h | h <;>
      simp [CodeGenerator.selectedTemplateName, h, CodeGenerator.getDefaultTemplateName, htmp]
  · intro htmp hact heng
    have hsel : CodeGenerator.selectedTemplateName g = none := by
      simp [CodeGenerator.selectedTemplateName, hact, CodeGenerator.getDefaultTemplateName, htmp]
    unfold CodeGenerator.generateComponent
    rw [hsel]
    simp [CodeGenerator.jsInterpOpt, TemplateEngine.render, heng]

/-- Witness for C8 at concrete generator states: an active configuration is
dispatched to, an unset active template falls back to the first registered
configuration, and the empty generator fails with the
`"undefined:component"` template-not-found error. -/
theorem generator_dispatch_witness :
    CodeGenerator.selectedTemplateName
        ⟨⟨[], []⟩, [("X", ⟨"X", "react", "typescript", "a", "b", "c", "d", []⟩)],
          some "X"⟩ = some "X" ∧
    CodeGenerator.selectedTemplateName
        ⟨⟨[], []⟩, [("X", ⟨"X", "react", "typescript", "a", "b", "c", "d", []⟩)],
          none⟩ = some "X" ∧
    CodeGenerator.generateComponent CodeGenerator.init [] false =
      .error (.render (.templateNotFound "undefined:component")) := by
  refine ⟨?_, ?_, ?_⟩
  · exact (generator_dispatch
      ⟨⟨[], []⟩, [("X", ⟨"X", "react", "typescript", "a", "b", "c", "d", []⟩)], some "X"⟩
      [] false).1 "X" rfl (by decide)
  · exact (generator_dispatch
      ⟨⟨[], []⟩, [("X", ⟨"X", "react", "typescript", "a", "b", "c", "d", []⟩)], none⟩
      [] false).2.1 "X" ⟨"X", "react", "typescript", "a", "b", "c", "d", []⟩ []
      (Or.inl rfl) rfl
  · exact (generator_dispatch CodeGenerator.init [] false).2.2 rfl rfl rfl

namespace DynamicImportManager

theorem insertByWeight_perm (c : UsedComponent) :
    ∀ l : List UsedComponent, (insertByWeight c l).Perm (c :: l) := by
  intro l
  induction l with
  | nil => simp [insertByWeight]
  | cons d rest ih =>
    by_cases h : d.weight ≤ c.weight
    · simp [insertByWeight, h]
    · simp only [insertByWeight, if_neg h]
      exact (List.Perm.cons d ih).trans (List.Perm.swap c d rest)

theorem sortByWeight_perm :
    ∀ l : List UsedComponent, (sortByWeight l).Perm l := by
  intro l
  induction l with
  | nil => simp [sortByWeight]
  | cons c rest ih =>
    exact (insertByWeight_perm c (sortByWeight rest)).trans (List.Perm.cons c ih)

theorem insertByWeight_sorted (c : UsedComponent) :
    ∀ l : List UsedComponent,
      l.Pairwise (fun a b => b.weight ≤ a.weight) →
      (insertByWeight c l).Pairwise (fun a b => b.weight ≤ a.weight) := by
  intro l
  induction l with
  | nil => intro _; simp [insertByWeight]
  | cons d rest ih =>
    intro hs
    rcases List.pairwise_cons.mp hs with ⟨hd, hrest⟩
    by_cases h : d.weight ≤ c.weight
    · simp only [insertByWeight, if_pos h]
      refine List.pairwise_cons.mpr ⟨?_, hs⟩
      intro x hx
      rcases List.mem_cons.mp hx with he | hm
      · exact he ▸ h
      · exact le_trans (hd x hm) h
    · simp only [insertByWeight, if_neg h]
      refine List.pairwise_cons.mpr ⟨?_, ih hrest⟩
      intro x hx
      have hx2 := (insertByWeight_perm c rest).mem_iff.mp hx
      rcases List.mem_cons.mp hx2 with he | hm
      · exact he ▸ le_of_lt (lt_of_not_le h)
      · exact hd x hm

theorem sortByWeight_sorted :
    ∀ l : List UsedComponent,
      (sortByWeight l).Pairwise (fun a b => b.weight ≤ a.weight) := by
  intro l
  induction l with
  | nil => simp [sortByWeight]
  | cons c rest ih => exact insertByWeight_sorted c (sortByWeight rest) ih

theorem mem_usedEntries (m : State) (used : List String) (n : String)
    (e : ImportEntry) (hmem : n ∈ used)
    (hget : TemplateEngine.mapGet n m.importMap = some e) :
    (⟨n, e.path, e.weight⟩ : UsedComponent) ∈ usedEntries m used := by
  unfold usedEntries
  exact List.mem_filterMap.mpr ⟨n, hmem, by rw [hget]; rfl⟩

theorem mem_sortedComponents (m : State) (used : List String) (n : String)
    (e : ImportEntry) (hmem : n ∈ used)
    (hget : TemplateEngine.mapGet n m.importMap = some e) :
    (⟨n, e.path, e.weight⟩ : UsedComponent) ∈ sortedComponents m used :=
  (sortByWeight_perm (usedEntries m used)).mem_iff.mpr
    (mem_usedEntries m used n e hmem hget)

end DynamicImportManager

namespace DynamicImportManager

theorem takeWhile_append_stop (q : Char → Bool) :
    ∀ (l : List Char), (∀ c ∈ l, q c = true) → ∀ (c0 : Char) (rest : List Char),
      q c0 = false → (l ++ c0 :: rest).takeWhile q = l := by
  intro l
  induction l with
  | nil =>
    intro _ c0 rest hq
    simp [List.takeWhile, hq]
  | cons a tl ih =>
    intro hl c0 rest hq
    have ha : q a = true := hl a (List.mem_cons_self _ _)
    simp only [List.cons_append, List.takeWhile, ha, List.append_eq]
    rw [ih (fun c hc => hl c (List.mem_cons_of_mem a hc)) c0 rest hq]

theorem lazyImportLine_ne_react (n p : String) : lazyImportLine n p ≠ reactLazyImport := by
  intro he
  have hd := congrArg String.data he
  simp only [lazyImportLine, reactLazyImport, String.data_append] at hd
  simp at hd

theorem eagerImportLine_ne_react (n p : String)
    (h : ∀ c ∈ n.data, c ≠ ' ') : eagerImportLine n p ≠ reactLazyImport := by
  intro he
  have hd := congrArg String.data he
  simp only [eagerImportLine, reactLazyImport, String.data_append] at hd
  simp only [List.cons_append, List.nil_append, List.append_assoc, List.cons.injEq,
    true_and] at hd
  -- hd : n.data ++ (' ' :: 'f' :: … ) = 'R' :: 'e' :: …
  have hq : ∀ c ∈ n.data, (fun c => decide (c ≠ ' ')) c = true := by
    intro c hc
    simpa using h c hc
  have ht := congrArg (List.takeWhile (fun c => decide (c ≠ ' '))) hd
  rw [takeWhile_append_stop (fun c => decide (c ≠ ' ')) n.data hq ' ' _ (by decide)] at ht
  have hr : (['R', 'e', 'a', 'c', 't', ',', ' ', '\x7b', ' ', 'l', 'a', 'z', 'y', ',',
      ' ', 'S', 'u', 's', 'p', 'e', 'n', 's', 'e', ' ', '\x7d', ' ', 'f', 'r', 'o', 'm',
      ' ', '\x27', 'r', 'e', 'a', 'c', 't', '\x27', ';'] : List Char).takeWhile
        (fun c => decide (c ≠ ' ')) = ['R', 'e', 'a', 'c', 't', ','] := by decide
  rw [hr] at ht
  rw [ht] at hd
  simp at hd

theorem importLine_ne_react (c : UsedComponent)
    (h : ∀ ch ∈ c.name.data, ch ≠ ' ') : importLine c ≠ reactLazyImport := by
  unfold importLine
  by_cases hw : eagerThreshold < c.weight
  · simpa [hw] using eagerImportLine_ne_react c.name c.path h
  · simpa [hw] using lazyImportLine_ne_react c.name c.path

end DynamicImportManager

open DynamicImportManager in
/-- Claim C6: `generateOptimizedImports` emits the React import line
followed by one line per used, registered component; the per-component
lines are ordered by descending weight over exactly the used, registered
components; a component whose weight exceeds `0.8` yields an eager import
statement and one with weight at most `0.8` yields a lazy-loading wrapper;
and (for components whose names contain no space, which rules out a name
that spells out the React import line itself) if at least one component is
lazy, the deferred-loading primitives `lazy, Suspense` are imported exactly
once, as the first emitted line. -/
theorem import_strategy_partition (m : DynamicImportManager.State)
    (used : List String) :
    generateOptimizedImportLines m used =
        (if hasLazy (sortedComponents m used) then reactLazyImport
          else reactPlainImport) :: (sortedComponents m used).map importLine ∧
      (sortedComponents m used).Pairwise (fun a b => b.weight ≤ a.weight) ∧
      (sortedComponents m used).Perm (usedEntries m used) ∧
      (∀ (n : String) (e : ImportEntry), n ∈ used →
        TemplateEngine.mapGet n m.importMap = some e →
        (eagerThreshold < e.weight →
          eagerImportLine n e.path ∈ generateOptimizedImportLines m used) ∧
        (e.weight ≤ eagerThreshold →
          lazyImportLine n e.path ∈ generateOptimizedImportLines m used)) ∧
      (∀ c ∈ sortedComponents m used,
        (eagerThreshold < c.weight → importLine c = eagerImportLine c.name c.path) ∧
        (c.weight ≤ eagerThreshold → importLine c = lazyImportLine c.name c.path)) ∧
      ((∀ c ∈ sortedComponents m used, ∀ ch ∈ c.name.data, ch ≠ ' ') →
        hasLazy (sortedComponents m used) = true →
        (generateOptimizedImportLines m used).head? = some reactLazyImport ∧
          (generateOptimizedImportLines m used).count reactLazyImport = 1) := by
  refine ⟨rfl, sortByWeight_sorted _, sortByWeight_perm _, ?_, ?_, ?_⟩
  · intro n e hmem hget
    have hc := mem_sortedComponents m used n e hmem hget
    constructor
    · intro hw
      have hline : importLine ⟨n, e.path, e.weight⟩ = eagerImportLine n e.path := by
        simp [importLine, hw]
      exact List.mem_cons_of_mem _ (hline ▸ List.mem_map_of_mem importLine hc)
    · intro hw
      have hline : importLine ⟨n, e.path, e.weight⟩ = lazyImportLine n e.path := by
        simp [importLine, not_lt_of_le hw]
      exact List.mem_cons_of_mem _ (hline ▸ List.mem_map_of_mem importLine hc)
  · intro c _
    constructor
    · intro hw; simp [importLine, hw]
    · intro hw; simp [importLine, not_lt_of_le hw]
  · intro hnames hlazy
    constructor
    · simp [generateOptimizedImportLines, hlazy]
    · have hzero :
          ((sortedComponents m used).map importLine).count reactLazyImport = 0 := by
        apply List.count_eq_zero.mpr
        intro hmem
        rcases List.mem_map.mp hmem with ⟨c, hcmem, hline⟩
        exact importLine_ne_react c (hnames c hcmem) hline
      simp [generateOptimizedImportLines, hlazy, List.count_cons, hzero]

open DynamicImportManager in
/-- Witness for C6 at the spec's example weights `{X: 0.9, Y: 0.5}`: the
emitted lines are the lazy React import, an eager `import X`, then a lazy
wrapper for `Y`, with the React import exactly once at the head. -/
theorem import_strategy_partition_witness :
    generateOptimizedImportLines
        (registerComponent (registerComponent ⟨[], []⟩ "X" "x" (mkRat 9 10))
          "Y" "y" (mkRat 5 10)) ["X", "Y"] =
        [reactLazyImport, eagerImportLine "X" "x", lazyImportLine "Y" "y"] ∧
      (generateOptimizedImportLines
        (registerComponent (registerComponent ⟨[], []⟩ "X" "x" (mkRat 9 10))
          "Y" "y" (mkRat 5 10)) ["X", "Y"]).head? = some reactLazyImport ∧
      (generateOptimizedImportLines
        (registerComponent (registerComponent ⟨[], []⟩ "X" "x" (mkRat 9 10))
          "Y" "y" (mkRat 5 10)) ["X", "Y"]).count reactLazyImport = 1 := by
  have h := import_strategy_partition
    (registerComponent (registerComponent ⟨[], []⟩ "X" "x" (mkRat 9 10))
      "Y" "y" (mkRat 5 10)) ["X", "Y"]
  refine ⟨by decide, ?_, ?_⟩
  · exact (h.2.2.2.2.2 (by decide) (by decide)).1
  · exact (h.2.2.2.2.2 (by decide) (by decide)).2
